import Mathlib

/-!
# GoToSocial configuration resolver (`internal/config/config.go`)

A shallow embedding of the configuration package: the `Config` object, the
constructor `New` with its file loader `loadFromFile`, the resolver
`Config.ParseFlags`, and the two key tables `GetFlagNames` / `GetEnvNames`.

Conventions of the embedding:

* a Go pointer that may be `nil` is an `Option`;
* a Go `(value, error)` return is a pair whose second component is `none`
  for a `nil` error and `some msg` for an error whose `Error()` text is `msg`;
* Go `int` is `Int` (no arithmetic is performed on it here);
* in-place mutation through the receiver `c *Config` is explicit state
  passing: the resolver returns the object as it has left it;
* the operating system (`os.ReadFile`) and the YAML library
  (`yaml.Unmarshal`) are parameters, collected in `World`;
* an override source is a `KeyedFlags` when each of its methods answers, and a
  `FailingFlags` when a method may fail instead (in Go, by panicking).
-/

namespace GoToSocial

/-! ## Data model -/

/-- Modelled from the spec: the declaration of `DBConfig` lives in a file of the
package that is not part of the sources at hand.  The spec describes the group
as "connection type, address, port, user, password, database name"; these are
the six fields `ParseFlags` reads and writes (`Port` is compared with `0` and
assigned from `KeyedFlags.Int`, the others are compared with `""` and assigned
from `KeyedFlags.String`).  The Go field `Type` is spelled `Type_`, `Type` being
reserved. -/
structure DBConfig where
  Type_ : String := ""
  Address : String := ""
  Port : Int := 0
  User : String := ""
  Password : String := ""
  Database : String := ""
  deriving DecidableEq, Repr

/-- The Go struct `Config`; `DBConfig` is a pointer field, `none` is `nil`. -/
structure Config where
  LogLevel : String := ""
  ApplicationName : String := ""
  DBConfig : Option DBConfig := none
  deriving DecidableEq, Repr

/-- Go `string`. -/
abbrev GoString := String

/-- Go `int`. -/
abbrev GoInt := Int

/-- The Go interface `KeyedFlags`: three methods, none of which returns an error.
Here every method answers every call; an implementation whose methods may fail
is a `FailingFlags`. -/
structure KeyedFlags where
  String : GoString → GoString
  Int : GoString → GoInt
  IsSet : GoString → Bool

/-- The Go struct `Flags`: one name per logical setting. -/
structure Flags where
  LogLevel : String
  ApplicationName : String
  ConfigPath : String
  DbType : String
  DbAddress : String
  DbPort : String
  DbUser : String
  DbPassword : String
  DbDatabase : String
  deriving DecidableEq, Repr

/-! ## Key registry -/

/-- Go `GetFlagNames`. -/
def GetFlagNames : Flags :=
  { LogLevel := "log-level"
    ApplicationName := "application-name"
    ConfigPath := "config-path"
    DbType := "db-type"
    DbAddress := "db-address"
    DbPort := "db-port"
    DbUser := "db-user"
    DbPassword := "db-password"
    DbDatabase := "db-database" }

/-- Go `GetEnvNames`. -/
def GetEnvNames : Flags :=
  { LogLevel := "GTS_LOG_LEVEL"
    ApplicationName := "GTS_APPLICATION_NAME"
    ConfigPath := "GTS_CONFIG_PATH"
    DbType := "GTS_DB_TYPE"
    DbAddress := "GTS_DB_ADDRESS"
    DbPort := "GTS_DB_PORT"
    DbUser := "GTS_DB_USER"
    DbPassword := "GTS_DB_PASSWORD"
    DbDatabase := "GTS_DB_DATABASE" }

/-! ## The outside world -/

/-- The two library calls `loadFromFile` makes.

* `ReadFile path` is `os.ReadFile(path)`: the bytes and the error.
* `Unmarshal bytes config` is `yaml.Unmarshal(bytes, config)`: the object the
  pointer designates after the call (the decoder writes through the pointer,
  possibly also when it fails) and the error. -/
structure World where
  ReadFile : String → List UInt8 × Option String
  Unmarshal : List UInt8 → Config → Config × Option String

/-- What a call of `New` or `loadFromFile` amounts to: the two Go return values
and the paths handed to `os.ReadFile` during the call, in order. -/
structure Returned where
  config : Option Config
  err : Option String
  reads : List String
  deriving DecidableEq, Repr

/-! ## Construction -/

/-- Go `loadFromFile`. -/
def loadFromFile (w : World) (path : String) : Returned :=
  match w.ReadFile path with
  | (_, some err) =>
    { config := none
      err := some ("could not read file at path " ++ path ++ ": " ++ err)
      reads := [path] }
  | (bytes, none) =>
    let config : Config := {}
    match w.Unmarshal bytes config with
    | (_, some err) =>
      { config := none
        err := some ("could not unmarshal file at path " ++ path ++ ": " ++ err)
        reads := [path] }
    | (config, none) =>
      { config := some config
        err := none
        reads := [path] }

/-- Go `New`. -/
def New (w : World) (path : String) : Returned :=
  let config : Config := { DBConfig := some {} }
  if path ≠ "" then
    let r := loadFromFile w path
    match r.err with
    | some err =>
      { config := none
        err := some ("error creating config: " ++ err)
        reads := r.reads }
    | none =>
      { config := r.config
        err := none
        reads := r.reads }
  else
    { config := some config
      err := none
      reads := [] }

/-! ## Resolution -/

/-- How a call of `ParseFlags` ends, together with the receiver object as the
call has left it: `done` is a normal return, `nilDeref` the run-time panic
raised by reading a field through the `nil` pointer `c.DBConfig`. -/
inductive Outcome where
  | done (c : Config)
  | nilDeref (c : Config)
  deriving DecidableEq, Repr

/-- The receiver object at the end of the call. -/
def Outcome.config : Outcome → Config
  | .done c => c
  | .nilDeref c => c

/-- Go `(*Config).ParseFlags`.  The two general branches run first; every
database branch starts by reading a field through `c.DBConfig`, so a `nil`
group panics at the first of them, after the general branches have already
written to the receiver. -/
def Config.ParseFlags (c : Config) (f : KeyedFlags) : Outcome :=
  let fn := GetFlagNames
  -- general flags
  let c : Config :=
    if c.LogLevel == "" || f.IsSet fn.LogLevel then
      { c with LogLevel := f.String fn.LogLevel }
    else c
  let c : Config :=
    if c.ApplicationName == "" || f.IsSet fn.ApplicationName then
      { c with ApplicationName := f.String fn.ApplicationName }
    else c
  -- db flags
  match c.DBConfig with
  | none => .nilDeref c
  | some db =>
    let db :=
      if db.Type_ == "" || f.IsSet fn.DbType then
        { db with Type_ := f.String fn.DbType }
      else db
    let db :=
      if db.Address == "" || f.IsSet fn.DbAddress then
        { db with Address := f.String fn.DbAddress }
      else db
    let db :=
      if db.Port == 0 || f.IsSet fn.DbPort then
        { db with Port := f.Int fn.DbPort }
      else db
    let db :=
      if db.User == "" || f.IsSet fn.DbUser then
        { db with User := f.String fn.DbUser }
      else db
    let db :=
      if db.Password == "" || f.IsSet fn.DbPassword then
        { db with Password := f.String fn.DbPassword }
      else db
    let db :=
      if db.Database == "" || f.IsSet fn.DbDatabase then
        { db with Database := f.String fn.DbDatabase }
      else db
    .done { c with DBConfig := some db }

/-! ## Vocabulary for the properties -/

/-- A value held by a resolved field: a Go `string` or a Go `int`. -/
inductive Val where
  | str (s : String)
  | int (n : Int)
  deriving DecidableEq, Repr

/-- The eight fields `ParseFlags` resolves. -/
inductive Field where
  | LogLevel
  | ApplicationName
  | Type_
  | Address
  | Port
  | User
  | Password
  | Database
  deriving DecidableEq, Repr

/-- The flag key documented for each resolved field. -/
def Field.key : Field → String
  | .LogLevel => "log-level"
  | .ApplicationName => "application-name"
  | .Type_ => "db-type"
  | .Address => "db-address"
  | .Port => "db-port"
  | .User => "db-user"
  | .Password => "db-password"
  | .Database => "db-database"

/-- The empty/zero value of a field: `""` for the strings, `0` for `Port`. -/
def Field.sentinel : Field → Val
  | .Port => .int 0
  | _ => .str ""

/-- The value of a field in a configuration; a database field has no value when
the database group is `nil`. -/
def Field.get : Field → Config → Option Val
  | .LogLevel, c => some (.str c.LogLevel)
  | .ApplicationName, c => some (.str c.ApplicationName)
  | .Type_, c => c.DBConfig.map fun db => .str db.Type_
  | .Address, c => c.DBConfig.map fun db => .str db.Address
  | .Port, c => c.DBConfig.map fun db => .int db.Port
  | .User, c => c.DBConfig.map fun db => .str db.User
  | .Password, c => c.DBConfig.map fun db => .str db.Password
  | .Database, c => c.DBConfig.map fun db => .str db.Database

/-- The override source's value for the key of a field: `f.Int K` for `Port`,
`f.String K` for the others. -/
def Field.flagValue (F : Field) (f : KeyedFlags) : Val :=
  match F with
  | .Port => .int (f.Int F.key)
  | _ => .str (f.String F.key)

/-- The nine logical setting names: the fields of the Go struct `Flags`. -/
inductive LogicalName where
  | LogLevel
  | ApplicationName
  | ConfigPath
  | DbType
  | DbAddress
  | DbPort
  | DbUser
  | DbPassword
  | DbDatabase
  deriving DecidableEq, Repr

/-- The nine logical names, in the order in which `Flags` declares them. -/
def LogicalName.all : List LogicalName :=
  [.LogLevel, .ApplicationName, .ConfigPath, .DbType, .DbAddress, .DbPort, .DbUser,
    .DbPassword, .DbDatabase]

/-- Field selection on a `Flags` table by logical name. -/
def Flags.get (t : Flags) : LogicalName → String
  | .LogLevel => t.LogLevel
  | .ApplicationName => t.ApplicationName
  | .ConfigPath => t.ConfigPath
  | .DbType => t.DbType
  | .DbAddress => t.DbAddress
  | .DbPort => t.DbPort
  | .DbUser => t.DbUser
  | .DbPassword => t.DbPassword
  | .DbDatabase => t.DbDatabase

/-- The nine identifiers a table holds, in declaration order. -/
def Flags.names (t : Flags) : List String :=
  LogicalName.all.map t.get

/-! ## The calls made on the override source -/

/-- A method call on a `KeyedFlags` value, with the key passed. -/
inductive Call where
  | IsSet (k : GoString)
  | String (k : GoString)
  | Int (k : GoString)
  deriving DecidableEq, Repr

/-- The key a call passes. -/
def Call.key : Call → GoString
  | .IsSet k => k
  | .String k => k
  | .Int k => k

/-- One branch of `ParseFlags`, the Go statement
`if cur == zero || f.IsSet(k) { cur = fetch(k) }`: the value of `cur` after it
and the calls it makes on `f`, in order.  Go evaluates `||` left to right and
stops at the first true operand, so `IsSet` is called only when `cur` is not
the zero value; `fetch` is called exactly when the condition holds. -/
def branch {α : Type} [BEq α] (f : KeyedFlags) (cur zero : α) (k : String)
    (fetch : String → α) (fetched : String → Call) : α × List Call :=
  if cur == zero then (fetch k, [fetched k])
  else if f.IsSet k then (fetch k, [.IsSet k, fetched k])
  else (cur, [.IsSet k])

/-- Go `(*Config).ParseFlags` once more, branch by branch, now also recording
the calls made on `f`.  The first component is shown below to be
`Config.ParseFlags`. -/
def Config.ParseFlagsTraced (c : Config) (f : KeyedFlags) : Outcome × List Call :=
  let fn := GetFlagNames
  -- general flags
  let ll := branch f c.LogLevel "" fn.LogLevel f.String .String
  let an := branch f c.ApplicationName "" fn.ApplicationName f.String .String
  -- db flags
  match c.DBConfig with
  | none =>
    (.nilDeref { LogLevel := ll.1, ApplicationName := an.1, DBConfig := none },
      ll.2 ++ an.2)
  | some db =>
    let ty := branch f db.Type_ "" fn.DbType f.String .String
    let ad := branch f db.Address "" fn.DbAddress f.String .String
    let po := branch f db.Port 0 fn.DbPort f.Int .Int
    let us := branch f db.User "" fn.DbUser f.String .String
    let pw := branch f db.Password "" fn.DbPassword f.String .String
    let da := branch f db.Database "" fn.DbDatabase f.String .String
    (.done
        { LogLevel := ll.1
          ApplicationName := an.1
          DBConfig := some
            { Type_ := ty.1, Address := ad.1, Port := po.1, User := us.1, Password := pw.1,
              Database := da.1 } },
      ll.2 ++ an.2 ++ ty.2 ++ ad.2 ++ po.2 ++ us.2 ++ pw.2 ++ da.2)

/-- The keys passed to the override source during a call of `ParseFlags`. -/
def Config.consultedKeys (c : Config) (f : KeyedFlags) : List String :=
  (c.ParseFlagsTraced f).2.map Call.key

/-! ## The naming convention in the words of the specification -/

/-- Every letter upper-cased and every `-` replaced by `_`, behind the
project's `GTS_` marker. -/
def envNameOf (flagName : String) : String :=
  "GTS_" ++ String.mk (flagName.data.map fun ch => if ch = '-' then '_' else ch.toUpper)

/-! ## Sample inputs -/

/-- A configuration as a file declaring only `db.port: 5432` under a `db` block
decodes: the database group is allocated, every other field is empty. -/
def fileWithPort5432 : Config :=
  { DBConfig := some { Port := 5432 } }

/-- An override source in which only `db-port` has been supplied, with value
`5433`; every other key reports the empty string or zero. -/
def onlyPortSet5433 : KeyedFlags :=
  { String := fun _ => ""
    Int := fun k => if k = "db-port" then 5433 else 0
    IsSet := fun k => k == "db-port" }

/-- An override source in which nothing has been supplied and whose values are
the flag library's own defaults: `info`, `gotosocial`, `postgres`,
`localhost`, `5432`, `postgres`, `postgres`, `postgres`. -/
def flagDefaultsOnly : KeyedFlags :=
  { String := fun k =>
      if k = "log-level" then "info"
      else if k = "application-name" then "gotosocial"
      else if k = "db-address" then "localhost"
      else "postgres"
    Int := fun _ => 5432
    IsSet := fun _ => false }

/-- An override source in which only `log-level` has been supplied, with value
`debug`; every other key reports the empty string or zero. -/
def onlyLogLevelDebug : KeyedFlags :=
  { String := fun k => if k = "log-level" then "debug" else ""
    Int := fun _ => 0
    IsSet := fun k => k == "log-level" }

/-- An override source in which only `log-level` has been supplied, with value
`debug`, and whose other values are flag defaults (`postgres`, `5432`). -/
def debugOverDefaults : KeyedFlags :=
  { String := fun k => if k = "log-level" then "debug" else "postgres"
    Int := fun _ => 5432
    IsSet := fun k => k == "log-level" }

/-- A world with one file, `config.yaml`, whose content is the fifteen bytes of
the line `logLevel: info` (no `db` block).  Any other path does not exist.  The
decoder leaves its target untouched on empty input, sets `LogLevel` on that one
document, and rejects everything else. -/
def sampleWorld : World :=
  { ReadFile := fun path =>
      if path = "config.yaml" then
        ([108, 111, 103, 76, 101, 118, 101, 108, 58, 32, 105, 110, 102, 111, 10], none)
      else ([], some ("open " ++ path ++ ": no such file or directory"))
    Unmarshal := fun bytes config =>
      if bytes = [] then (config, none)
      else if bytes = [108, 111, 103, 76, 101, 118, 101, 108, 58, 32, 105, 110, 102, 111, 10] then
        ({ config with LogLevel := "info" }, none)
      else (config, some "yaml: did not find expected key") }

/-! ## The branches one by one -/

/-- The order in which `ParseFlags` visits the fields (config.go:79-110). -/
def Field.sourceOrder : List Field :=
  [.LogLevel, .ApplicationName, .Type_, .Address, .Port, .User, .Password, .Database]

/-- The branch of `ParseFlags` for one field, as a step on the receiver: the Go
statement `if F == zero || f.IsSet(K) { F = f.String(K) }` (`f.Int(K)` for
`Port`).  A database branch first reads its field through `c.DBConfig` and
panics when that pointer is `nil`. -/
def Field.step (F : Field) (f : KeyedFlags) (c : Config) : Outcome :=
  let fn := GetFlagNames
  match F with
  | .LogLevel =>
    .done
      (if c.LogLevel == "" || f.IsSet fn.LogLevel then
        { c with LogLevel := f.String fn.LogLevel }
      else c)
  | .ApplicationName =>
    .done
      (if c.ApplicationName == "" || f.IsSet fn.ApplicationName then
        { c with ApplicationName := f.String fn.ApplicationName }
      else c)
  | .Type_ =>
    match c.DBConfig with
    | none => .nilDeref c
    | some db =>
      .done
        { c with
          DBConfig := some
            (if db.Type_ == "" || f.IsSet fn.DbType then
              { db with Type_ := f.String fn.DbType }
            else db) }
  | .Address =>
    match c.DBConfig with
    | none => .nilDeref c
    | some db =>
      .done
        { c with
          DBConfig := some
            (if db.Address == "" || f.IsSet fn.DbAddress then
              { db with Address := f.String fn.DbAddress }
            else db) }
  | .Port =>
    match c.DBConfig with
    | none => .nilDeref c
    | some db =>
      .done
        { c with
          DBConfig := some
            (if db.Port == 0 || f.IsSet fn.DbPort then
              { db with Port := f.Int fn.DbPort }
            else db) }
  | .User =>
    match c.DBConfig with
    | none => .nilDeref c
    | some db =>
      .done
        { c with
          DBConfig := some
            (if db.User == "" || f.IsSet fn.DbUser then
              { db with User := f.String fn.DbUser }
            else db) }
  | .Password =>
    match c.DBConfig with
    | none => .nilDeref c
    | some db =>
      .done
        { c with
          DBConfig := some
            (if db.Password == "" || f.IsSet fn.DbPassword then
              { db with Password := f.String fn.DbPassword }
            else db) }
  | .Database =>
    match c.DBConfig with
    | none => .nilDeref c
    | some db =>
      .done
        { c with
          DBConfig := some
            (if db.Database == "" || f.IsSet fn.DbDatabase then
              { db with Database := f.String fn.DbDatabase }
            else db) }

/-- The branches run one after the other in a given order; a panic ends the
walk.  With `Field.sourceOrder` this is `Config.ParseFlags`. -/
def Config.ParseFlagsInOrder (c : Config) (order : List Field) (f : KeyedFlags) : Outcome :=
  match order with
  | [] => .done c
  | F :: rest =>
    match F.step f c with
    | .done c' => c'.ParseFlagsInOrder rest f
    | .nilDeref c' => .nilDeref c'

/-- The database branches first, the two general branches last. -/
def Field.dbFirstOrder : List Field :=
  [.Type_, .Address, .Port, .User, .Password, .Database, .LogLevel, .ApplicationName]

/-! ## An override source that can fail -/

/-- What a failing call on the override source raises.  The methods of
`KeyedFlags` have no error result, so a Go implementation can fail only by
panicking; `typeMismatch k` is the failure of a fetch for key `k` whose value
is not of the type asked for. -/
inductive SourceFailure where
  | typeMismatch (k : GoString)
  | other (msg : GoString)
  deriving DecidableEq, Repr

/-- The Go interface `KeyedFlags` with implementations that may fail: each
method either answers or raises a `SourceFailure`. -/
structure FailingFlags where
  String : GoString → Except SourceFailure GoString
  Int : GoString → Except SourceFailure GoInt
  IsSet : GoString → Except SourceFailure Bool

/-- A source that answers every call, seen as one that may fail. -/
def KeyedFlags.toFailing (f : KeyedFlags) : FailingFlags :=
  { String := fun k => .ok (f.String k)
    Int := fun k => .ok (f.Int k)
    IsSet := fun k => .ok (f.IsSet k) }

/-- How a call of `ParseFlags` on a source that may fail ends: as a call on an
answering source does, or with the failure a method of the source raised.
`ParseFlags` contains no `recover`, so that failure passes on to its caller;
the second component is the receiver as the call has left it. -/
inductive OutcomeF where
  | ended (o : Outcome)
  | failed (e : SourceFailure) (c : Config)
  deriving DecidableEq, Repr

/-- The value a branch leaves in its field, the Go statement
`if cur == zero || f.IsSet(k) { cur = fetch(k) }`, when the calls on `f` may
fail.  `||` evaluates `IsSet` only when `cur` is not the zero value, and the
right-hand side `fetch(k)` is evaluated before anything is assigned, so a
failing call leaves `cur` unassigned. -/
def branchF {α : Type} [BEq α] (f : FailingFlags) (cur zero : α) (k : GoString)
    (fetch : GoString → Except SourceFailure α) : Except SourceFailure α :=
  if cur == zero then fetch k
  else
    match f.IsSet k with
    | .error e => .error e
    | .ok true => fetch k
    | .ok false => .ok cur

/-- Go `(*Config).ParseFlags` on a source that may fail: the same eight
branches in the same order, each ending the call with the source's failure
when one of its calls fails. -/
def Config.ParseFlagsF (c : Config) (f : FailingFlags) : OutcomeF :=
  let fn := GetFlagNames
  -- general flags
  match branchF f c.LogLevel "" fn.LogLevel f.String with
  | .error e => .failed e c
  | .ok ll =>
    let c : Config := { c with LogLevel := ll }
    match branchF f c.ApplicationName "" fn.ApplicationName f.String with
    | .error e => .failed e c
    | .ok an =>
      let c : Config := { c with ApplicationName := an }
      -- db flags
      match c.DBConfig with
      | none => .ended (.nilDeref c)
      | some db =>
        match branchF f db.Type_ "" fn.DbType f.String with
        | .error e => .failed e { c with DBConfig := some db }
        | .ok ty =>
          let db := { db with Type_ := ty }
          match branchF f db.Address "" fn.DbAddress f.String with
          | .error e => .failed e { c with DBConfig := some db }
          | .ok ad =>
            let db := { db with Address := ad }
            match branchF f db.Port 0 fn.DbPort f.Int with
            | .error e => .failed e { c with DBConfig := some db }
            | .ok po =>
              let db := { db with Port := po }
              match branchF f db.User "" fn.DbUser f.String with
              | .error e => .failed e { c with DBConfig := some db }
              | .ok us =>
                let db := { db with User := us }
                match branchF f db.Password "" fn.DbPassword f.String with
                | .error e => .failed e { c with DBConfig := some db }
                | .ok pw =>
                  let db := { db with Password := pw }
                  match branchF f db.Database "" fn.DbDatabase f.String with
                  | .error e => .failed e { c with DBConfig := some db }
                  | .ok da =>
                    let db := { db with Database := da }
                    .ended (.done { c with DBConfig := some db })

/-- The fetch `ParseFlags` makes for a field: `f.Int K` for `Port`, `f.String K`
for the others. -/
def Field.fetchF (F : Field) (f : FailingFlags) : Except SourceFailure Val :=
  match F with
  | .Port => (f.Int F.key).map Val.int
  | _ => (f.String F.key).map Val.str

/-- An override source holding free text for `db-port` (supplied by the
operator) and nothing else: `String` answers every key, `Int` fails with a type
mismatch on `db-port`. -/
def freeTextPortFailing : FailingFlags :=
  { String := fun k => .ok (if k = "db-port" then "five thousand" else "")
    Int := fun k => if k = "db-port" then .error (.typeMismatch k) else .ok 0
    IsSet := fun k => .ok (k == "db-port") }

/-- Whether the two calls `ParseFlags` may make for a field both answer:
`IsSet K`, and the fetch `Int K` for `Port`, `String K` for the others. -/
def FailingFlags.answers (f : FailingFlags) : Field → Bool
  | .LogLevel => (f.IsSet "log-level").isOk && (f.String "log-level").isOk
  | .ApplicationName => (f.IsSet "application-name").isOk && (f.String "application-name").isOk
  | .Type_ => (f.IsSet "db-type").isOk && (f.String "db-type").isOk
  | .Address => (f.IsSet "db-address").isOk && (f.String "db-address").isOk
  | .Port => (f.IsSet "db-port").isOk && (f.Int "db-port").isOk
  | .User => (f.IsSet "db-user").isOk && (f.String "db-user").isOk
  | .Password => (f.IsSet "db-password").isOk && (f.String "db-password").isOk
  | .Database => (f.IsSet "db-database").isOk && (f.String "db-database").isOk

/-! ## Closed form of the resolver -/

theorem DBConfig.eq_mk (x : DBConfig) {a b : String} {n : Int} {d e g : String}
    (h1 : x.Type_ = a) (h2 : x.Address = b) (h3 : x.Port = n) (h4 : x.User = d)
    (h5 : x.Password = e) (h6 : x.Database = g) : x = ⟨a, b, n, d, e, g⟩ := by
  cases x
  simp_all

/-- With an allocated database group the call returns normally, and each field
of the result is given by its own branch. -/
theorem ParseFlags_alloc (ll an : String) (db : DBConfig) (f : KeyedFlags) :
    Config.ParseFlags ⟨ll, an, some db⟩ f = .done
      { LogLevel := if ll == "" || f.IsSet "log-level" then f.String "log-level" else ll
        ApplicationName :=
          if an == "" || f.IsSet "application-name" then f.String "application-name" else an
        DBConfig := some
          { Type_ := if db.Type_ == "" || f.IsSet "db-type" then f.String "db-type" else db.Type_
            Address :=
              if db.Address == "" || f.IsSet "db-address" then f.String "db-address" else db.Address
            Port := if db.Port == 0 || f.IsSet "db-port" then f.Int "db-port" else db.Port
            User := if db.User == "" || f.IsSet "db-user" then f.String "db-user" else db.User
            Password :=
              if db.Password == "" || f.IsSet "db-password" then f.String "db-password"
              else db.Password
            Database :=
              if db.Database == "" || f.IsSet "db-database" then f.String "db-database"
              else db.Database } } := by
  simp only [Config.ParseFlags, GetFlagNames, apply_ite Config.DBConfig,
    apply_ite Config.LogLevel, apply_ite Config.ApplicationName, ite_self,
    Outcome.done.injEq, Config.mk.injEq, Option.some.injEq, true_and]
  apply DBConfig.eq_mk <;>
    simp only [apply_ite DBConfig.Type_, apply_ite DBConfig.Address, apply_ite DBConfig.Port,
      apply_ite DBConfig.User, apply_ite DBConfig.Password, apply_ite DBConfig.Database, ite_self]

/-- With a `nil` database group the call panics at the first database branch;
the two general branches have been applied to the receiver by then. -/
theorem ParseFlags_nil (ll an : String) (f : KeyedFlags) :
    Config.ParseFlags ⟨ll, an, none⟩ f = .nilDeref
      { LogLevel := if ll == "" || f.IsSet "log-level" then f.String "log-level" else ll
        ApplicationName :=
          if an == "" || f.IsSet "application-name" then f.String "application-name" else an
        DBConfig := none } := by
  simp only [Config.ParseFlags, GetFlagNames, apply_ite Config.DBConfig,
    apply_ite Config.LogLevel, apply_ite Config.ApplicationName, ite_self]
  split <;> split <;> simp_all

/-! ## The per-field precedence rule -/

/-- C1. For every configuration with an allocated database group and every
override source, `ParseFlags` returns normally, and each of the eight resolved
fields `F` with key `K` then holds the override source's value for `K` if `F`
was empty/zero before the call or `IsSet K` is true, and its value before the
call otherwise. -/
theorem ParseFlags_field_rule (c : Config) (db : DBConfig) (f : KeyedFlags)
    (h : c.DBConfig = some db) :
    ∃ c', c.ParseFlags f = .done c' ∧
      ∀ F : Field, F.get c' =
        if F.get c = some F.sentinel ∨ f.IsSet F.key = true then some (F.flagValue f)
        else F.get c := by
  obtain ⟨ll, an, d⟩ := c
  simp only at h
  subst h
  refine ⟨_, ParseFlags_alloc ll an db f, ?_⟩
  intro F
  cases F <;>
    simp only [Field.get, Field.sentinel, Field.key, Field.flagValue, Option.map_some',
      Option.some.injEq, Val.str.injEq, Val.int.injEq, Bool.or_eq_true, beq_iff_eq] <;>
    split <;> rfl

theorem ParseFlags_field_rule_witness :
    fileWithPort5432.DBConfig = some { Port := 5432 } ∧
      ∃ c', fileWithPort5432.ParseFlags onlyPortSet5433 = .done c' ∧
        ∀ F : Field, F.get c' =
          if F.get fileWithPort5432 = some F.sentinel ∨ onlyPortSet5433.IsSet F.key = true then
            some (F.flagValue onlyPortSet5433)
          else F.get fileWithPort5432 :=
  ⟨rfl, ParseFlags_field_rule fileWithPort5432 { Port := 5432 } onlyPortSet5433 rfl⟩

/-- C2. Explicit override always wins: for every resolved field `F` with key
`K` that has a value before the call (whatever that value is) and every
override source with `IsSet K` true, the field `F` of the configuration as
`ParseFlags` leaves it equals the override source's value for `K`.  The call
returns normally whenever the database group is allocated; with a `nil` group
only the two general fields have a value, and the statement then describes
the receiver at the point where the call panics. -/
theorem ParseFlags_explicit_override_wins (c : Config) (f : KeyedFlags) (F : Field) (v1 : Val)
    (hF : F.get c = some v1) (hset : f.IsSet F.key = true) :
    F.get (c.ParseFlags f).config = some (F.flagValue f) ∧
      (c.DBConfig ≠ none → ∃ c', c.ParseFlags f = .done c') := by
  obtain ⟨ll, an, d⟩ := c
  cases d with
  | none =>
    rw [ParseFlags_nil]
    cases F <;> simp_all [Field.get, Field.key, Field.flagValue, Outcome.config]
  | some db =>
    rw [ParseFlags_alloc]
    refine ⟨?_, fun _ => ⟨_, rfl⟩⟩
    cases F <;> simp_all [Field.get, Field.key, Field.flagValue, Outcome.config]

theorem ParseFlags_explicit_override_wins_witness :
    Field.get .Port fileWithPort5432 = some (.int 5432) ∧
      onlyPortSet5433.IsSet "db-port" = true ∧
      Field.get .Port (fileWithPort5432.ParseFlags onlyPortSet5433).config = some (.int 5433) :=
  ⟨rfl, rfl,
    (ParseFlags_explicit_override_wins fileWithPort5432 onlyPortSet5433 .Port (.int 5432)
      rfl rfl).1⟩

/-- C3. File wins over non-explicit override defaults: for every resolved field
`F` with key `K` holding a non-empty/non-zero value `v` before the call and every
override source with `IsSet K` false, the field `F` of the configuration as
`ParseFlags` leaves it still equals `v`, whatever the override source's value
for `K` is.  The call returns normally whenever the database group is
allocated. -/
theorem ParseFlags_file_value_kept (c : Config) (f : KeyedFlags) (F : Field) (v : Val)
    (hF : F.get c = some v) (hv : v ≠ F.sentinel) (hset : f.IsSet F.key = false) :
    F.get (c.ParseFlags f).config = some v ∧
      (c.DBConfig ≠ none → ∃ c', c.ParseFlags f = .done c') := by
  obtain ⟨ll, an, d⟩ := c
  cases d with
  | none =>
    rw [ParseFlags_nil]
    cases F <;>
      simp only [Field.get, Option.map_some', Option.map_none', Option.some.injEq] at hF <;>
      first
        | exact absurd hF (by simp)
        | (subst hF; simp_all [Field.get, Field.key, Field.sentinel, Outcome.config])
  | some db =>
    rw [ParseFlags_alloc]
    refine ⟨?_, fun _ => ⟨_, rfl⟩⟩
    cases F <;>
      simp only [Field.get, Option.map_some', Option.map_none', Option.some.injEq] at hF <;>
      first
        | exact absurd hF (by simp)
        | (subst hF; simp_all [Field.get, Field.key, Field.sentinel, Outcome.config])

theorem ParseFlags_file_value_kept_witness :
    Field.get .Port fileWithPort5432 = some (.int 5432) ∧
      Val.int 5432 ≠ Field.sentinel .Port ∧
      flagDefaultsOnly.IsSet "db-port" = false ∧
      Field.get .Port (fileWithPort5432.ParseFlags flagDefaultsOnly).config = some (.int 5432) :=
  ⟨rfl, by decide, rfl,
    (ParseFlags_file_value_kept fileWithPort5432 flagDefaultsOnly .Port (.int 5432)
      rfl (by decide) rfl).1⟩

/-! ## Resolution from the defaults -/

theorem New_empty (w : World) :
    New w "" = { config := some { DBConfig := some {} }, err := none, reads := [] } := by
  simp [New]

/-- C4, as stated, fails: starting from the defaults that `New ""` returns, with
an override source in which `db-type` has not been supplied (`IsSet` is false)
but whose value for `db-type` is the flag default `postgres`, `ParseFlags` does
not leave `DBConfig.Type` empty: it becomes `postgres`. -/
theorem ParseFlags_defaults_unset_not_left_empty :
    (New sampleWorld "").config = some { DBConfig := some {} } ∧
      flagDefaultsOnly.IsSet (Field.key .Type_) = false ∧
      Field.get .Type_ (Config.ParseFlags { DBConfig := some {} } flagDefaultsOnly).config =
        some (.str "postgres") ∧
      Val.str "postgres" ≠ Field.sentinel .Type_ := by
  refine ⟨by simp [New], rfl, ?_, by decide⟩
  rfl

/-- C4, amended. Starting from the defaults that `New ""` returns, for every
override source `f`, `ParseFlags` returns normally and every resolved field `F`
with key `K` ends up equal to `f`'s value for `K`, whether or not `IsSet K` is
true; in particular a field whose key has not been supplied is left at its
zero/empty value when `f`'s value for that key is itself zero/empty. -/
theorem ParseFlags_defaults_take_flag_values (w : World) (f : KeyedFlags) :
    ∃ c₀ c', New w "" = { config := some c₀, err := none, reads := [] } ∧
      c₀.ParseFlags f = .done c' ∧
      (∀ F : Field, F.get c' = some (F.flagValue f)) ∧
      (∀ F : Field, f.IsSet F.key = false → F.flagValue f = F.sentinel →
        F.get c' = some F.sentinel) := by
  have hall : ∀ F : Field,
      F.get (Config.ParseFlags { DBConfig := some {} } f).config = some (F.flagValue f) := by
    intro F
    rw [ParseFlags_alloc]
    cases F <;> simp [Field.get, Field.flagValue, Field.key, Outcome.config]
  refine ⟨_, _, New_empty w, ParseFlags_alloc _ _ _ f, ?_, ?_⟩
  · simpa [ParseFlags_alloc, Outcome.config] using hall
  · intro F _ hv
    have := hall F
    rw [ParseFlags_alloc] at this
    rw [← hv]
    simpa [Outcome.config] using this

theorem ParseFlags_defaults_take_flag_values_witness :
    ∃ c₀ c', New sampleWorld "" = { config := some c₀, err := none, reads := [] } ∧
      c₀.ParseFlags onlyLogLevelDebug = .done c' ∧
      (∀ F : Field, F.get c' = some (F.flagValue onlyLogLevelDebug)) ∧
      (∀ F : Field, onlyLogLevelDebug.IsSet F.key = false →
        F.flagValue onlyLogLevelDebug = F.sentinel → F.get c' = some F.sentinel) :=
  ParseFlags_defaults_take_flag_values sampleWorld onlyLogLevelDebug

/-- The scenario with only `log-level` supplied, as `debug`, and empty or zero
values for every other key: the defaults resolve to `LogLevel = "debug"` and
every other field empty or zero. -/
theorem ParseFlags_defaults_only_log_level :
    Config.ParseFlags { DBConfig := some {} } onlyLogLevelDebug =
      .done { LogLevel := "debug", ApplicationName := "", DBConfig := some {} } := by
  rfl

/-! ## Idempotence -/

theorem resolve_idem {α : Type} [DecidableEq α] (z x v : α) (s : Bool) :
    (if ((if (x == z || s) then v else x) == z || s) then v else (if (x == z || s) then v else x))
      = if (x == z || s) then v else x := by
  cases s <;> by_cases hx : x = z <;> by_cases hv : v = z <;> simp [hx, hv]

/-- C5. `ParseFlags` is idempotent for a fixed override source: for every
configuration with an allocated database group, the call returns normally, and
applying it again to the result returns that same result. -/
theorem ParseFlags_idempotent (c : Config) (db : DBConfig) (f : KeyedFlags)
    (h : c.DBConfig = some db) :
    ∃ c', c.ParseFlags f = .done c' ∧ c'.ParseFlags f = .done c' := by
  obtain ⟨ll, an, d⟩ := c
  simp only at h
  subst h
  refine ⟨_, ParseFlags_alloc ll an db f, ?_⟩
  rw [ParseFlags_alloc]
  simp only [resolve_idem]

theorem ParseFlags_idempotent_witness :
    fileWithPort5432.DBConfig = some { Port := 5432 } ∧
      ∃ c', fileWithPort5432.ParseFlags flagDefaultsOnly = .done c' ∧
        c'.ParseFlags flagDefaultsOnly = .done c' :=
  ⟨rfl, ParseFlags_idempotent fileWithPort5432 { Port := 5432 } flagDefaultsOnly rfl⟩

/-! ## A file without a database block -/

/-- C6 fails on the code. The file `config.yaml` of `sampleWorld` declares
`logLevel: info` and no `db` block; `New` returns without error the object
decoded onto a fresh `Config`, whose database group is `nil`, and on that
object `ParseFlags` does not return: it panics on the `nil` group, for every
override source. -/
theorem ParseFlags_panics_after_file_without_db (f : KeyedFlags) :
    ∃ c c', New sampleWorld "config.yaml" =
        { config := some c, err := none, reads := ["config.yaml"] } ∧
      c = { LogLevel := "info", ApplicationName := "", DBConfig := none } ∧
      c.ParseFlags f = .nilDeref c' := by
  refine ⟨_, _, ?_, rfl, ParseFlags_nil _ _ f⟩
  rfl

/-! ## Construction -/

/-- C7. `New` with the empty path never fails, reads no file, and returns a
configuration whose database group is allocated and whose every scalar field
is empty or zero. -/
theorem New_empty_path_defaults (w : World) :
    New w "" =
      { config := some
          { LogLevel := ""
            ApplicationName := ""
            DBConfig := some
              { Type_ := "", Address := "", Port := 0, User := "", Password := "",
                Database := "" } }
        err := none
        reads := [] } := by
  simp [New]

/-- C8. `New path` returns an error exactly when `path` is non-empty and either
reading the file fails, or reading succeeds and decoding what was read onto a
fresh `Config` fails; with an error it returns no configuration (also when the
decoder had written to its target before failing), and without an error it
returns one. -/
theorem New_error_iff (w : World) (path : String) :
    ((New w path).err ≠ none ↔
        path ≠ "" ∧
          ((w.ReadFile path).2 ≠ none ∨
            ((w.ReadFile path).2 = none ∧ (w.Unmarshal (w.ReadFile path).1 {}).2 ≠ none))) ∧
      ((New w path).err ≠ none → (New w path).config = none) ∧
      ((New w path).err = none → (New w path).config ≠ none) := by
  by_cases hp : path = ""
  · simp [New, hp]
  · rcases hr : w.ReadFile path with ⟨bytes, _ | e⟩
    · rcases hu : w.Unmarshal bytes {} with ⟨cfg, _ | e⟩ <;>
        simp [New, loadFromFile, hp, hr, hu]
    · simp [New, loadFromFile, hp, hr]

theorem read_message_ne_unmarshal_message (P E P' E' : String) :
    "error creating config: could not read file at path " ++ P ++ ": " ++ E ≠
      "error creating config: could not unmarshal file at path " ++ P' ++ ": " ++ E' := by
  intro h
  have h1 : "error creating config: could not read file at path " =
      "error creating config: could not " ++ ("r" ++ "ead file at path ") := by decide
  have h2 : "error creating config: could not unmarshal file at path " =
      "error creating config: could not " ++ ("u" ++ "nmarshal file at path ") := by decide
  rw [h1, h2] at h
  have h3 := congrArg String.data h
  simp only [String.data_append, List.append_assoc, List.append_cancel_left_eq] at h3
  revert h3
  simp

/-- C9. Both file failure kinds carry the offending path and the underlying
cause: for every non-empty path `P`, if reading fails with cause `E` then `New`
returns the error "error creating config: could not read file at path P: E",
and if reading succeeds and decoding fails with cause `E` then it returns
"error creating config: could not unmarshal file at path P: E"; a message of
the first kind is never equal to a message of the second kind, whatever the
paths and causes. -/
theorem New_error_messages (w : World) (P : String) (hP : P ≠ "") :
    (∀ E, (w.ReadFile P).2 = some E →
        (New w P).err =
          some ("error creating config: could not read file at path " ++ P ++ ": " ++ E)) ∧
      (∀ E, (w.ReadFile P).2 = none → (w.Unmarshal (w.ReadFile P).1 {}).2 = some E →
        (New w P).err =
          some ("error creating config: could not unmarshal file at path " ++ P ++ ": " ++ E)) ∧
      (∀ P' E E',
        "error creating config: could not read file at path " ++ P ++ ": " ++ E ≠
          "error creating config: could not unmarshal file at path " ++ P' ++ ": " ++ E') := by
  have h1 : "error creating config: could not read file at path " =
      "error creating config: " ++ "could not read file at path " := by decide
  have h2 : "error creating config: could not unmarshal file at path " =
      "error creating config: " ++ "could not unmarshal file at path " := by decide
  refine ⟨?_, ?_, fun P' E E' => read_message_ne_unmarshal_message P E P' E'⟩
  · intro E hE
    rcases hr : w.ReadFile P with ⟨bytes, e⟩
    rw [hr] at hE
    simp only at hE
    subst hE
    simp only [New, loadFromFile, hP, hr, ne_eq, not_false_eq_true, if_true,
      String.append_assoc, Option.some.injEq]
    rw [h1, String.append_assoc]
  · intro E hR hE
    rcases hr : w.ReadFile P with ⟨bytes, e⟩
    rw [hr] at hR hE
    simp only at hR hE
    subst hR
    rcases hu : w.Unmarshal bytes {} with ⟨cfg, e⟩
    rw [hu] at hE
    simp only at hE
    subst hE
    simp only [New, loadFromFile, hP, hr, hu, ne_eq, not_false_eq_true, if_true,
      String.append_assoc, Option.some.injEq]
    rw [h2, String.append_assoc]

theorem New_error_messages_witness :
    "missing.yaml" ≠ "" ∧
      (New sampleWorld "missing.yaml").err =
        some ("error creating config: could not read file at path " ++ "missing.yaml" ++ ": " ++
          "open missing.yaml: no such file or directory") :=
  ⟨by decide, (New_error_messages sampleWorld "missing.yaml" (by decide)).1 _ rfl⟩

/-! ## Key registry -/

/-- C10. The key registry tables are exactly the documented constants:
`GetFlagNames` maps the nine logical names to `log-level`, `application-name`,
`config-path`, `db-type`, `db-address`, `db-port`, `db-user`, `db-password`,
`db-database`, and `GetEnvNames` maps them, in the same order, to
`GTS_LOG_LEVEL`, `GTS_APPLICATION_NAME`, `GTS_CONFIG_PATH`, `GTS_DB_TYPE`,
`GTS_DB_ADDRESS`, `GTS_DB_PORT`, `GTS_DB_USER`, `GTS_DB_PASSWORD`,
`GTS_DB_DATABASE`. -/
theorem registry_tables :
    (GetFlagNames.LogLevel = "log-level" ∧
      GetFlagNames.ApplicationName = "application-name" ∧
      GetFlagNames.ConfigPath = "config-path" ∧
      GetFlagNames.DbType = "db-type" ∧
      GetFlagNames.DbAddress = "db-address" ∧
      GetFlagNames.DbPort = "db-port" ∧
      GetFlagNames.DbUser = "db-user" ∧
      GetFlagNames.DbPassword = "db-password" ∧
      GetFlagNames.DbDatabase = "db-database") ∧
    (GetEnvNames.LogLevel = "GTS_LOG_LEVEL" ∧
      GetEnvNames.ApplicationName = "GTS_APPLICATION_NAME" ∧
      GetEnvNames.ConfigPath = "GTS_CONFIG_PATH" ∧
      GetEnvNames.DbType = "GTS_DB_TYPE" ∧
      GetEnvNames.DbAddress = "GTS_DB_ADDRESS" ∧
      GetEnvNames.DbPort = "GTS_DB_PORT" ∧
      GetEnvNames.DbUser = "GTS_DB_USER" ∧
      GetEnvNames.DbPassword = "GTS_DB_PASSWORD" ∧
      GetEnvNames.DbDatabase = "GTS_DB_DATABASE") :=
  ⟨⟨rfl, rfl, rfl, rfl, rfl, rfl, rfl, rfl, rfl⟩, ⟨rfl, rfl, rfl, rfl, rfl, rfl, rfl, rfl, rfl⟩⟩

/-- C11. Registry names are unique and the mapping is one to one: the nine
flag identifiers of `GetFlagNames` are pairwise distinct, the nine environment
identifiers of `GetEnvNames` are pairwise distinct, no identifier occurs in
both tables, and so two different logical names never share a flag identifier
or an environment identifier. -/
theorem registry_names_unique :
    GetFlagNames.names.Nodup ∧ GetEnvNames.names.Nodup ∧
      (∀ s ∈ GetFlagNames.names, s ∉ GetEnvNames.names) ∧
      Function.Injective GetFlagNames.get ∧ Function.Injective GetEnvNames.get := by
  refine ⟨by decide, by decide, by decide, ?_, ?_⟩
  · intro a b h
    cases a <;> cases b <;> first | rfl | exact absurd h (by decide)
  · intro a b h
    cases a <;> cases b <;> first | rfl | exact absurd h (by decide)

/-! ## The keys the resolver consults -/

theorem branch_fst {α : Type} [BEq α] (f : KeyedFlags) (cur zero : α) (k : String)
    (fetch : String → α) (fetched : String → Call) :
    (branch f cur zero k fetch fetched).1 =
      if (cur == zero || f.IsSet k) then fetch k else cur := by
  unfold branch
  cases h1 : cur == zero <;> cases h2 : f.IsSet k <;> simp

/-- The traced resolver computes the same outcome as `Config.ParseFlags`. -/
theorem ParseFlagsTraced_fst (c : Config) (f : KeyedFlags) :
    (c.ParseFlagsTraced f).1 = c.ParseFlags f := by
  obtain ⟨ll, an, d⟩ := c
  cases d with
  | none => rw [ParseFlags_nil]; simp [Config.ParseFlagsTraced, branch_fst, GetFlagNames]
  | some db => rw [ParseFlags_alloc]; simp [Config.ParseFlagsTraced, branch_fst, GetFlagNames]

theorem mem_branch_keys {α : Type} [BEq α] (f : KeyedFlags) (cur zero : α) (k : String)
    (fetch : String → α) (fetched : String → Call) (hk : (fetched k).key = k) (x : String) :
    x ∈ (branch f cur zero k fetch fetched).2.map Call.key ↔ x = k := by
  unfold branch
  have hi : (Call.IsSet k).key = k := rfl
  cases h1 : cur == zero <;> cases h2 : f.IsSet k <;> simp [hi, hk]

theorem mem_consultedKeys_alloc (ll an : String) (db : DBConfig) (f : KeyedFlags) (x : String) :
    x ∈ Config.consultedKeys ⟨ll, an, some db⟩ f ↔
      x = "log-level" ∨ x = "application-name" ∨ x = "db-type" ∨ x = "db-address" ∨
        x = "db-port" ∨ x = "db-user" ∨ x = "db-password" ∨ x = "db-database" := by
  simp only [Config.consultedKeys, Config.ParseFlagsTraced, GetFlagNames, List.map_append,
    List.mem_append, mem_branch_keys, Call.key, or_assoc]

theorem mem_consultedKeys_nil (ll an : String) (f : KeyedFlags) (x : String) :
    x ∈ Config.consultedKeys ⟨ll, an, none⟩ f ↔ x = "log-level" ∨ x = "application-name" := by
  simp only [Config.consultedKeys, Config.ParseFlagsTraced, GetFlagNames, List.map_append,
    List.mem_append, mem_branch_keys, Call.key]

/-- C12, as stated, fails: `config-path`, the identifier of the logical name
`ConfigPath`, is in the registry, yet resolving a configuration with an
allocated database group never passes it to the override source. -/
theorem ParseFlags_skips_config_path :
    GetFlagNames.get .ConfigPath ∈ GetFlagNames.names ∧
      GetFlagNames.get .ConfigPath ∉ fileWithPort5432.consultedKeys flagDefaultsOnly := by
  decide

/-- C12, amended. `ParseFlags` consults no key that is not in the registry, it
never consults `config-path`, and on a configuration with an allocated database
group it consults the key of each of the eight other logical names. -/
theorem ParseFlags_consulted_keys (c : Config) (f : KeyedFlags) :
    (∀ k ∈ c.consultedKeys f, k ∈ GetFlagNames.names) ∧
      GetFlagNames.get .ConfigPath ∉ c.consultedKeys f ∧
      (∀ db, c.DBConfig = some db →
        ∀ n : LogicalName, n ≠ .ConfigPath → GetFlagNames.get n ∈ c.consultedKeys f) := by
  obtain ⟨ll, an, d⟩ := c
  cases d with
  | none =>
    refine ⟨?_, ?_, ?_⟩
    · intro k hk
      rw [mem_consultedKeys_nil] at hk
      rcases hk with h | h <;> subst h <;> decide
    · rw [mem_consultedKeys_nil]
      decide
    · intro db h
      simp at h
  | some db =>
    refine ⟨?_, ?_, ?_⟩
    · intro k hk
      rw [mem_consultedKeys_alloc] at hk
      rcases hk with h | h | h | h | h | h | h | h <;> subst h <;> decide
    · rw [mem_consultedKeys_alloc]
      decide
    · intro _ _ n hn
      rw [mem_consultedKeys_alloc]
      cases n <;> first | exact absurd rfl hn | decide

theorem ParseFlags_consulted_keys_witness :
    fileWithPort5432.DBConfig = some { Port := 5432 } ∧
      LogicalName.DbPort ≠ LogicalName.ConfigPath ∧
      GetFlagNames.get .DbPort ∈ fileWithPort5432.consultedKeys flagDefaultsOnly :=
  ⟨rfl, by decide,
    (ParseFlags_consulted_keys fileWithPort5432 flagDefaultsOnly).2.2 _ rfl .DbPort (by decide)⟩

/-! ## What a resolved field depends on -/

/-- The resolved value of a field, in whichever way the call ends, is a
function of its value before the call and of the override source's two answers
for its key. -/
theorem get_ParseFlags (c : Config) (f : KeyedFlags) (F : Field) :
    F.get (c.ParseFlags f).config =
      (F.get c).map fun v =>
        if v = F.sentinel ∨ f.IsSet F.key = true then F.flagValue f else v := by
  obtain ⟨ll, an, d⟩ := c
  cases d with
  | none =>
    rw [ParseFlags_nil]
    cases F <;>
      simp only [Field.get, Field.sentinel, Field.key, Field.flagValue, Outcome.config,
        Option.map_some', Option.map_none', Option.some.injEq, Val.str.injEq, Val.int.injEq,
        Bool.or_eq_true, beq_iff_eq] <;>
      split <;> rfl
  | some db =>
    rw [ParseFlags_alloc]
    cases F <;>
      simp only [Field.get, Field.sentinel, Field.key, Field.flagValue, Outcome.config,
        Option.map_some', Option.map_none', Option.some.injEq, Val.str.injEq, Val.int.injEq,
        Bool.or_eq_true, beq_iff_eq] <;>
      split <;> rfl

/-- On a source that answers every call, the call returns normally exactly when
the database group is allocated. -/
theorem ParseFlags_done_iff (c : Config) (f : KeyedFlags) :
    (∃ c', c.ParseFlags f = .done c') ↔ c.DBConfig ≠ none := by
  obtain ⟨ll, an, d⟩ := c
  cases d with
  | none => rw [ParseFlags_nil]; simp
  | some db => rw [ParseFlags_alloc]; simp

/-! ## A source that fails -/

theorem branchF_toFailing {α : Type} [BEq α] (f : KeyedFlags) (cur zero : α) (k : GoString)
    (fetch : GoString → α) :
    branchF f.toFailing cur zero k (fun k => .ok (fetch k)) =
      .ok (if (cur == zero || f.IsSet k) then fetch k else cur) := by
  unfold branchF
  cases h1 : cur == zero <;> cases h2 : f.IsSet k <;> simp [KeyedFlags.toFailing, h2]

/-- On a source that answers every call, the resolver for sources that may
fail ends as `Config.ParseFlags` does. -/
theorem ParseFlagsF_toFailing (c : Config) (f : KeyedFlags) :
    c.ParseFlagsF f.toFailing = .ended (c.ParseFlags f) := by
  obtain ⟨ll, an, d⟩ := c
  have hS : f.toFailing.String = fun k => .ok (f.String k) := rfl
  have hI : f.toFailing.Int = fun k => .ok (f.Int k) := rfl
  cases d with
  | none =>
    rw [ParseFlags_nil]
    simp only [Config.ParseFlagsF, GetFlagNames, hS, hI, branchF_toFailing]
  | some db =>
    rw [ParseFlags_alloc]
    simp only [Config.ParseFlagsF, GetFlagNames, hS, hI, branchF_toFailing]

theorem branchF_error {α : Type} [BEq α] (f : FailingFlags) (cur zero : α) (k : GoString)
    (fetch : GoString → Except SourceFailure α) (e : SourceFailure)
    (hb : (cur == zero) = true ∨ f.IsSet k = .ok true) (he : fetch k = .error e) :
    branchF f cur zero k fetch = .error e := by
  unfold branchF
  cases h1 : cur == zero
  · rcases hb with hb | hb
    · rw [h1] at hb; cases hb
    · simp [hb, he]
  · simp [he]

theorem branchF_error_answers {α : Type} [BEq α] (f : FailingFlags) (cur zero : α)
    (k : GoString) (fetch : GoString → Except SourceFailure α) (e : SourceFailure)
    (h : branchF f cur zero k fetch = .error e) :
    ((f.IsSet k).isOk && (fetch k).isOk) = false := by
  unfold branchF at h
  cases hf : fetch k with
  | error _ => simp [Except.isOk, Except.toBool]
  | ok u =>
    cases hi : f.IsSet k with
    | error _ => simp [Except.isOk, Except.toBool]
    | ok b =>
      rw [hf, hi] at h
      cases b <;> split at h <;> cases h

theorem map_eq_error {α β : Type} (g : α → β) (x : Except SourceFailure α) (e : SourceFailure)
    (h : Except.map g x = .error e) : x = .error e := by
  cases x <;> simp_all [Except.map]

/-- C13. When the override source fails while a value is fetched for a key,
`ParseFlags` passes that failure on to its caller and stores nothing: for every
field `F` with key `K` that has a value `v`, if the branch of `F` is taken (`v`
is empty/zero, or `IsSet K` answers true) and the fetch for `K` fails with `e`
(a type mismatch, say), then the call ends with a failure of the source, not
with a return, and `F` still holds `v`; the failure is `e` itself whenever the
calls for the fields whose branches come before that of `F` answer. -/
theorem ParseFlagsF_propagates_source_failure (c : Config) (f : FailingFlags) (F : Field)
    (v : Val) (e : SourceFailure) (hF : F.get c = some v)
    (hb : v = F.sentinel ∨ f.IsSet F.key = .ok true) (he : F.fetchF f = .error e) :
    ∃ e' c', c.ParseFlagsF f = .failed e' c' ∧ F.get c' = some v ∧
      ((∀ G ∈ Field.sourceOrder.takeWhile (fun G => G ≠ F), f.answers G = true) → e' = e) := by
  obtain ⟨ll, an, d⟩ := c
  cases d <;> cases F <;>
    simp only [Field.get, Option.map_some', Option.map_none', Option.some.injEq,
      reduceCtorEq] at hF <;>
    subst hF <;>
    simp only [Field.sentinel, Field.key, Field.fetchF, Val.str.injEq, Val.int.injEq] at hb he <;>
    have he' := map_eq_error _ _ _ he <;>
    have hbr := branchF_error f _ _ _ _ e (hb.imp (fun h => beq_iff_eq.2 h) id) he' <;>
    simp only [Config.ParseFlagsF, GetFlagNames] <;>
    repeat' (split <;> rename_i hq <;> first
      | (rw [hbr] at hq
         cases hq <;> exact ⟨_, _, rfl, rfl, fun _ => rfl⟩)
      | (have hna := branchF_error_answers _ _ _ _ _ _ hq
         refine ⟨_, _, rfl, rfl, fun ho => ?_⟩
         first
           | exact absurd ((ho .LogLevel (by decide)).symm.trans hna) (by decide)
           | exact absurd ((ho .ApplicationName (by decide)).symm.trans hna) (by decide)
           | exact absurd ((ho .Type_ (by decide)).symm.trans hna) (by decide)
           | exact absurd ((ho .Address (by decide)).symm.trans hna) (by decide)
           | exact absurd ((ho .Port (by decide)).symm.trans hna) (by decide)
           | exact absurd ((ho .User (by decide)).symm.trans hna) (by decide)
           | exact absurd ((ho .Password (by decide)).symm.trans hna) (by decide))
      | skip)

theorem ParseFlagsF_propagates_source_failure_witness :
    Field.get .Port fileWithPort5432 = some (.int 5432) ∧
      freeTextPortFailing.IsSet "db-port" = .ok true ∧
      Field.fetchF .Port freeTextPortFailing = .error (.typeMismatch "db-port") ∧
      ∃ e' c', fileWithPort5432.ParseFlagsF freeTextPortFailing = .failed e' c' ∧
        Field.get .Port c' = some (.int 5432) ∧
        ((∀ G ∈ Field.sourceOrder.takeWhile (fun G => G ≠ .Port),
            freeTextPortFailing.answers G = true) →
          e' = .typeMismatch "db-port") :=
  ⟨rfl, rfl, rfl,
    ParseFlagsF_propagates_source_failure fileWithPort5432 freeTextPortFailing .Port (.int 5432)
      (.typeMismatch "db-port") rfl (Or.inr rfl) rfl⟩

/-- With `db-port` holding free text, the file's port `5432` is in the
configuration when the type mismatch reaches the caller. -/
theorem ParseFlagsF_free_text_port :
    fileWithPort5432.ParseFlagsF freeTextPortFailing =
      .failed (.typeMismatch "db-port") { DBConfig := some { Port := 5432 } } := by
  rfl

/-! ## The order of the branches -/

theorem step_done_alloc (F : Field) (f : KeyedFlags) (ll an : String) (db : DBConfig) :
    ∃ ll' an' db', F.step f ⟨ll, an, some db⟩ = .done ⟨ll', an', some db'⟩ := by
  cases F <;> simp only [Field.step, GetFlagNames]
  · exact ⟨if (ll == "" || f.IsSet "log-level") then f.String "log-level" else ll, an, db, by
      split <;> rfl⟩
  · exact ⟨ll, if (an == "" || f.IsSet "application-name") then f.String "application-name" else an,
      db, by split <;> rfl⟩
  all_goals exact ⟨_, _, _, rfl⟩

/-- A branch applies the rule to its own field and leaves the others alone. -/
theorem step_get_alloc (F G : Field) (f : KeyedFlags) (ll an : String) (db : DBConfig) :
    G.get (F.step f ⟨ll, an, some db⟩).config =
      if G = F then
        (G.get ⟨ll, an, some db⟩).map fun v =>
          if v = G.sentinel ∨ f.IsSet G.key = true then G.flagValue f else v
      else G.get ⟨ll, an, some db⟩ := by
  cases F <;> cases G <;>
    simp only [Field.step, GetFlagNames, Outcome.config, Field.get, Field.sentinel, Field.key,
      Field.flagValue, Option.map_some', Option.some.injEq, Val.str.injEq, Val.int.injEq,
      Bool.or_eq_true, beq_iff_eq, reduceCtorEq, if_false, if_true,
      apply_ite Config.DBConfig, apply_ite Config.LogLevel, apply_ite Config.ApplicationName,
      apply_ite DBConfig.Type_, apply_ite DBConfig.Address, apply_ite DBConfig.Port,
      apply_ite DBConfig.User, apply_ite DBConfig.Password, apply_ite DBConfig.Database,
      ite_self] <;>
    (try split) <;> rfl

theorem config_eq_of_get (l₁ a₁ : String) (d₁ : DBConfig) (l₂ a₂ : String) (d₂ : DBConfig)
    (h : ∀ G : Field, G.get ⟨l₁, a₁, some d₁⟩ = G.get ⟨l₂, a₂, some d₂⟩) :
    (⟨l₁, a₁, some d₁⟩ : Config) = ⟨l₂, a₂, some d₂⟩ := by
  have h1 := h .LogLevel
  have h2 := h .ApplicationName
  have h3 := h .Type_
  have h4 := h .Address
  have h5 := h .Port
  have h6 := h .User
  have h7 := h .Password
  have h8 := h .Database
  simp only [Field.get, Option.map_some', Option.some.injEq, Val.str.injEq, Val.int.injEq]
    at h1 h2 h3 h4 h5 h6 h7 h8
  cases d₁
  cases d₂
  simp_all

/-- With an allocated database group, branches run in an order without
repetition return normally, each listed field resolved by its rule and the
others untouched. -/
theorem ParseFlagsInOrder_alloc (f : KeyedFlags) (order : List Field) (hnd : order.Nodup) :
    ∀ (ll an : String) (db : DBConfig),
      ∃ ll' an' db', Config.ParseFlagsInOrder ⟨ll, an, some db⟩ order f =
          .done ⟨ll', an', some db'⟩ ∧
        ∀ G : Field, G.get ⟨ll', an', some db'⟩ =
          if G ∈ order then
            (G.get ⟨ll, an, some db⟩).map fun v =>
              if v = G.sentinel ∨ f.IsSet G.key = true then G.flagValue f else v
          else G.get ⟨ll, an, some db⟩ := by
  induction order with
  | nil =>
    intro ll an db
    exact ⟨ll, an, db, rfl, fun G => by simp⟩
  | cons F rest ih =>
    intro ll an db
    obtain ⟨hF, hrest⟩ := List.nodup_cons.1 hnd
    obtain ⟨l₁, a₁, d₁, hstep⟩ := step_done_alloc F f ll an db
    obtain ⟨l₂, a₂, d₂, hwalk, hget⟩ := ih hrest l₁ a₁ d₁
    refine ⟨l₂, a₂, d₂, ?_, ?_⟩
    · rw [Config.ParseFlagsInOrder, hstep]
      exact hwalk
    · intro G
      have hs := step_get_alloc F G f ll an db
      rw [hstep] at hs
      simp only [Outcome.config] at hs
      rw [hget G, hs]
      by_cases hGF : G = F
      · subst hGF
        simp [hF]
      · simp [hGF]

/-- With a `nil` database group, branches run in an order that lists a database
field panic. -/
theorem ParseFlagsInOrder_nil (f : KeyedFlags) (order : List Field)
    (h : ∃ G ∈ order, G ≠ Field.LogLevel ∧ G ≠ Field.ApplicationName) :
    ∀ ll an : String, ∃ c', Config.ParseFlagsInOrder ⟨ll, an, none⟩ order f = .nilDeref c' := by
  induction order with
  | nil => simp at h
  | cons F rest ih =>
    intro ll an
    by_cases hF : F = Field.LogLevel ∨ F = Field.ApplicationName
    · have hrest : ∃ G ∈ rest, G ≠ Field.LogLevel ∧ G ≠ Field.ApplicationName := by
        obtain ⟨G, hG, h1, h2⟩ := h
        rcases List.mem_cons.1 hG with hG | hG
        · subst hG
          rcases hF with hF | hF
          · exact absurd hF h1
          · exact absurd hF h2
        · exact ⟨G, hG, h1, h2⟩
      rcases hF with hF | hF <;> subst hF
      · rw [Config.ParseFlagsInOrder]
        simp only [Field.step, GetFlagNames]
        split <;> exact ih hrest _ _
      · rw [Config.ParseFlagsInOrder]
        simp only [Field.step, GetFlagNames]
        split <;> exact ih hrest _ _
    · rw [Config.ParseFlagsInOrder]
      cases F <;> first
        | exact absurd (Or.inl rfl) hF
        | exact absurd (Or.inr rfl) hF
        | exact ⟨_, rfl⟩

theorem ParseFlagsInOrder_perm (c : Config) (f : KeyedFlags) (order : List Field)
    (hp : order.Perm Field.sourceOrder) :
    (c.DBConfig ≠ none → c.ParseFlagsInOrder order f = c.ParseFlags f) ∧
      (c.DBConfig = none → ∃ c', c.ParseFlagsInOrder order f = .nilDeref c') := by
  obtain ⟨ll, an, d⟩ := c
  cases d with
  | none =>
    refine ⟨fun h => absurd rfl h, fun _ => ?_⟩
    apply ParseFlagsInOrder_nil
    exact ⟨.Type_, hp.symm.subset (by decide), by decide, by decide⟩
  | some db =>
    refine ⟨fun _ => ?_, fun h => by simp at h⟩
    have hnd : order.Nodup := hp.symm.nodup_iff.1 (by decide)
    obtain ⟨l₂, a₂, d₂, hwalk, hget⟩ := ParseFlagsInOrder_alloc f order hnd ll an db
    rw [hwalk, ParseFlags_alloc]
    congr 1
    apply config_eq_of_get
    intro G
    have hmem : G ∈ order := hp.symm.subset (by cases G <;> decide)
    have hpf := get_ParseFlags ⟨ll, an, some db⟩ f G
    rw [ParseFlags_alloc] at hpf
    simp only [Outcome.config] at hpf
    rw [hget G, if_pos hmem, hpf]

/-- The branches run one by one in the order of the source are `ParseFlags`,
the panic on a `nil` group and the receiver at that point included. -/
theorem ParseFlagsInOrder_sourceOrder (c : Config) (f : KeyedFlags) :
    c.ParseFlagsInOrder Field.sourceOrder f = c.ParseFlags f := by
  obtain ⟨ll, an, d⟩ := c
  cases d with
  | none =>
    rw [ParseFlags_nil]
    simp only [Field.sourceOrder, Config.ParseFlagsInOrder, Field.step, GetFlagNames,
      apply_ite Config.DBConfig, apply_ite Config.LogLevel, apply_ite Config.ApplicationName,
      ite_self]
    split <;> split <;> simp_all
  | some db =>
    exact (ParseFlagsInOrder_perm _ f _ (List.Perm.refl _)).1 (by simp)

/-- C14. Fields are resolved independently.  For every resolved field `F` with
key `K`, any two configurations that agree on `F` and any two override sources
that agree on `K` (same `IsSet K`, same value for `K`) give the same resolved
`F`, whatever the other fields hold and whatever is answered for other keys.
So the order of the branches does not affect the result: `ParseFlags` is its
eight branches run one by one, and run in any other order they return normally
on the same inputs (those with an allocated database group) and then return the
same configuration; with a `nil` group they panic in every order. -/
theorem ParseFlags_field_independent :
    (∀ (c₁ c₂ : Config) (f₁ f₂ : KeyedFlags) (F : Field),
        F.get c₁ = F.get c₂ → f₁.IsSet F.key = f₂.IsSet F.key →
        F.flagValue f₁ = F.flagValue f₂ →
        F.get (c₁.ParseFlags f₁).config = F.get (c₂.ParseFlags f₂).config) ∧
      (∀ (c : Config) (f : KeyedFlags),
        c.ParseFlagsInOrder Field.sourceOrder f = c.ParseFlags f) ∧
      (∀ (c : Config) (f : KeyedFlags) (order : List Field),
        order.Perm Field.sourceOrder →
        (c.DBConfig ≠ none → c.ParseFlagsInOrder order f = c.ParseFlags f) ∧
          (c.DBConfig = none → ∃ c', c.ParseFlagsInOrder order f = .nilDeref c')) := by
  refine ⟨?_, ParseFlagsInOrder_sourceOrder, ParseFlagsInOrder_perm⟩
  intro c₁ c₂ f₁ f₂ F hc hs hv
  rw [get_ParseFlags, get_ParseFlags, hc, hs, hv]

theorem ParseFlags_field_independent_witness :
    (Field.get .LogLevel fileWithPort5432 =
        Field.get .LogLevel { LogLevel := "", ApplicationName := "gts", DBConfig := none } ∧
      onlyLogLevelDebug.IsSet "log-level" = debugOverDefaults.IsSet "log-level" ∧
      Field.flagValue .LogLevel onlyLogLevelDebug = Field.flagValue .LogLevel debugOverDefaults ∧
      Field.get .LogLevel (fileWithPort5432.ParseFlags onlyLogLevelDebug).config =
        Field.get .LogLevel
          (Config.ParseFlags { LogLevel := "", ApplicationName := "gts", DBConfig := none }
            debugOverDefaults).config) ∧
      (Field.dbFirstOrder.Perm Field.sourceOrder ∧
        fileWithPort5432.DBConfig ≠ none ∧
        fileWithPort5432.ParseFlagsInOrder Field.dbFirstOrder flagDefaultsOnly =
          fileWithPort5432.ParseFlags flagDefaultsOnly) :=
  ⟨⟨rfl, rfl, rfl,
      ParseFlags_field_independent.1 fileWithPort5432
        { LogLevel := "", ApplicationName := "gts", DBConfig := none }
        onlyLogLevelDebug debugOverDefaults .LogLevel rfl rfl rfl⟩,
    by decide, by decide,
    (ParseFlags_field_independent.2.2 fileWithPort5432 flagDefaultsOnly Field.dbFirstOrder
      (by decide)).1 (by decide)⟩

/-- With a `nil` group both orders panic, but not at the same point: in the
order of the source the two general fields are resolved by then, with the
database branches first nothing is. -/
theorem ParseFlagsInOrder_nil_receiver :
    Config.ParseFlagsInOrder { LogLevel := "", ApplicationName := "gts", DBConfig := none }
        Field.sourceOrder debugOverDefaults =
        .nilDeref { LogLevel := "debug", ApplicationName := "gts", DBConfig := none } ∧
      Config.ParseFlagsInOrder { LogLevel := "", ApplicationName := "gts", DBConfig := none }
        Field.dbFirstOrder debugOverDefaults =
        .nilDeref { LogLevel := "", ApplicationName := "gts", DBConfig := none } := by
  constructor <;> rfl

/-! ## What a loaded file leaves of the defaults -/

/-- C15. For a non-empty path whose file is read and decoded successfully,
`New` returns exactly the object the decoder produced from a fresh empty
`Config`, and nothing of the defaults carries over: a field the file does not
declare (one that decoding these bytes leaves as it finds it) is empty in the
returned configuration, and in particular the database group is `nil`, not the
group the defaults allocate, when the file declares no `db` block. -/
theorem New_returns_decoded_fresh_object (w : World) (path : String) (hp : path ≠ "")
    (hr : (w.ReadFile path).2 = none) (hu : (w.Unmarshal (w.ReadFile path).1 {}).2 = none) :
    New w path =
        { config := some (w.Unmarshal (w.ReadFile path).1 {}).1, err := none, reads := [path] } ∧
      ((∀ c₀, (w.Unmarshal (w.ReadFile path).1 c₀).1.LogLevel = c₀.LogLevel) →
        ∃ c, (New w path).config = some c ∧ c.LogLevel = "") ∧
      ((∀ c₀, (w.Unmarshal (w.ReadFile path).1 c₀).1.ApplicationName = c₀.ApplicationName) →
        ∃ c, (New w path).config = some c ∧ c.ApplicationName = "") ∧
      ((∀ c₀, (w.Unmarshal (w.ReadFile path).1 c₀).1.DBConfig = c₀.DBConfig) →
        ∃ c, (New w path).config = some c ∧ c.DBConfig = none) := by
  have hnew : New w path =
      { config := some (w.Unmarshal (w.ReadFile path).1 {}).1, err := none, reads := [path] } := by
    rcases hrf : w.ReadFile path with ⟨bytes, e⟩
    rw [hrf] at hr hu
    simp only at hr hu
    subst hr
    rcases huf : w.Unmarshal bytes {} with ⟨cfg, e⟩
    rw [huf] at hu
    simp only at hu
    subst hu
    simp [New, loadFromFile, hp, hrf, huf]
  refine ⟨hnew, ?_, ?_, ?_⟩ <;> intro h <;> exact ⟨_, by rw [hnew], by rw [h]⟩

theorem New_returns_decoded_fresh_object_witness :
    "config.yaml" ≠ "" ∧
      (sampleWorld.ReadFile "config.yaml").2 = none ∧
      (sampleWorld.Unmarshal (sampleWorld.ReadFile "config.yaml").1 {}).2 = none ∧
      New sampleWorld "config.yaml" =
        { config := some { LogLevel := "info", ApplicationName := "", DBConfig := none }
          err := none
          reads := ["config.yaml"] } :=
  ⟨by decide, rfl, rfl,
    (New_returns_decoded_fresh_object sampleWorld "config.yaml" (by decide) rfl rfl).1⟩

/-! ## Where an empty resolved field comes from -/

/-- C16. After `ParseFlags` a resolved field can be empty or zero only if the
override source's own value for its key is: for every configuration with an
allocated database group the call returns normally, and if the field `F` with
key `K` is `""` (or `0` for `Port`) afterwards then `f.String K` is `""`
(respectively `f.Int K` is `0`). -/
theorem ParseFlags_sentinel_only_from_flags (c : Config) (db : DBConfig) (f : KeyedFlags)
    (F : Field) (h : c.DBConfig = some db)
    (hz : F.get (c.ParseFlags f).config = some F.sentinel) :
    (∃ c', c.ParseFlags f = .done c') ∧ F.flagValue f = F.sentinel := by
  constructor
  · exact (ParseFlags_done_iff c f).2 (by rw [h]; simp)
  · rw [get_ParseFlags] at hz
    cases hg : F.get c with
    | none => rw [hg] at hz; simp at hz
    | some v =>
      rw [hg] at hz
      simp only [Option.map_some', Option.some.injEq] at hz
      split at hz
      · exact hz
      · rename_i hn
        exact absurd (Or.inl hz) hn

theorem ParseFlags_sentinel_only_from_flags_witness :
    fileWithPort5432.DBConfig = some { Port := 5432 } ∧
      Field.get .LogLevel (fileWithPort5432.ParseFlags onlyPortSet5433).config =
        some (Field.sentinel .LogLevel) ∧
      Field.flagValue .LogLevel onlyPortSet5433 = Field.sentinel .LogLevel :=
  ⟨rfl, rfl,
    (ParseFlags_sentinel_only_from_flags fileWithPort5432 { Port := 5432 } onlyPortSet5433
      .LogLevel rfl rfl).2⟩

/-! ## The naming convention of the two tables -/

/-- C17. For each of the nine logical names, the environment identifier in
`GetEnvNames` is `GTS_` followed by the flag identifier in `GetFlagNames` with
every letter upper-cased and every `-` replaced by `_`. -/
theorem env_name_from_flag_name (n : LogicalName) :
    GetEnvNames.get n = envNameOf (GetFlagNames.get n) := by
  cases n <;> decide

end GoToSocial
